import Mathlib

/-!
Shallow embedding of the scheduling and calendar-synchronization subsystem of the
Voice-Lead-Capture repository.

Conventions of the embedding:
* Instants are integers counting minutes in the business timezone (Luxon `DateTime`
  values compare and add linearly; DST is abstracted to a uniform timeline).
* A calendar date is the integer `t / 1440`; day index `0` is taken to be a Monday,
  so Luxon weekdays (1 = Monday .. 7 = Sunday) are `day % 7 + 1`.
* External effects (the Google free/busy query, `events.insert`, SQLite writes) are
  modelled by explicit environment records carrying the outcome of each external
  call, and by effect records reporting which calls a code path performed.
* JavaScript falsy checks on optional strings (`!x`) are modelled by `strFalsy`.
* Luxon library entry points that parse arbitrary strings (`DateTime.fromISO`,
  `DateTime.fromFormat`) are passed in as function parameters.
* User-facing message strings are abridged to short labels; control flow and the
  shape of every returned object follow the source.
-/

namespace VoiceLead

/-- An interval reported busy by the calendar provider (`period.start` / `period.end`
in the source; `end` is a Lean keyword, so the upper endpoint is called `stop`). -/
structure BusyPeriod where
  start : Int
  stop : Int
deriving Repr, DecidableEq

/-- A candidate bookable slot (`startTime` / `endTime` in `time-slots.js`; the derived
display strings are functions of `startTime` and are not carried separately). -/
structure Slot where
  startTime : Int
  endTime : Int
deriving Repr, DecidableEq

/-- The `config.calendar` block of `src/config/index.js`, after the
`businessHoursStart.split(':').map(Number)` parsing done at the top of
`generateTimeSlots`. -/
structure CalendarConfig where
  appointmentDuration : Int
  startHour : Int
  startMinute : Int
  endHour : Int
  endMinute : Int
  businessDays : List Int
deriving Repr, DecidableEq

/-- Luxon weekday of a calendar day index: 1 = Monday .. 7 = Sunday. -/
def weekdayOf (day : Int) : Int := day % 7 + 1

/-- Luxon `set {hour, minute}` yields a valid `DateTime` exactly when the fields are
in range; an invalid `DateTime` compares false with everything, so a config outside
these ranges generates no slots.  This predicate captures that validity. -/
def CalendarConfig.hoursValid (cfg : CalendarConfig) : Bool :=
  decide (0 ≤ cfg.startHour) && decide (cfg.startHour ≤ 23) &&
    decide (0 ≤ cfg.startMinute) && decide (cfg.startMinute ≤ 59) &&
    decide (0 ≤ cfg.endHour) && decide (cfg.endHour ≤ 23) &&
    decide (0 ≤ cfg.endMinute) && decide (cfg.endMinute ≤ 59)

/-- Open-interval overlap test `slotStart < busy.end && slotEnd > busy.start` from
`generateTimeSlots`. -/
def slotOverlapsBusy (slotStart slotEnd : Int) (b : BusyPeriod) : Bool :=
  decide (slotStart < b.stop) && decide (slotEnd > b.start)

/-- The inner `while` loop of `generateTimeSlots` for one business day: consecutive
`appointmentDuration`-length slots from the business-open time while
`slotStart + duration ≤ dayEnd`, keeping a slot when it is at least one hour after
`now` and clear of every busy period.  The loop index `k` counts completed steps of
`slotStart = slotStart.plus(duration)`. -/
def slotsForDay (cfg : CalendarConfig) (now day : Int) (busy : List BusyPeriod) :
    List Slot :=
  let dayStart := day * 1440 + cfg.startHour * 60 + cfg.startMinute
  let dayEnd := day * 1440 + cfg.endHour * 60 + cfg.endMinute
  (List.range ((dayEnd - dayStart) / cfg.appointmentDuration).toNat).filterMap fun (k : Nat) =>
    let slotStart := dayStart + (k : Int) * cfg.appointmentDuration
    let slotEnd := slotStart + cfg.appointmentDuration
    if now + 60 ≤ slotStart ∧ busy.all (fun b => !slotOverlapsBusy slotStart slotEnd b) then
      some { startTime := slotStart, endTime := slotEnd }
    else none

/-- `generateTimeSlots(startDate, endDate, busyPeriods)` from `src/utils/time-slots.js`.
The outer loop runs `currentDate` from `startDate.startOf('day')` while
`currentDate ≤ endDate.endOf('day')`, keeping configured business days.  `now` is the
generation-time clock reading (`DateTime.now()`), passed explicitly. -/
def generateTimeSlots (cfg : CalendarConfig) (now startDate endDate : Int)
    (busyPeriods : List BusyPeriod) : List Slot :=
  if cfg.hoursValid then
    ((List.range (endDate / 1440 + 1 - startDate / 1440).toNat).map
        (fun (k : Nat) => startDate / 1440 + (k : Int))).flatMap fun day =>
      if cfg.businessDays.contains (weekdayOf day) then slotsForDay cfg now day busyPeriods
      else []
  else []

/-- `filterByTimeOfDay(slots, timeOfDay)` from `src/utils/time-slots.js`:
morning = [6,12), afternoon = [12,17), evening = [17,21) by local hour of the slot
start; `'any'` is the identity and unknown labels keep everything. -/
def filterByTimeOfDay (slots : List Slot) (timeOfDay : String) : List Slot :=
  if timeOfDay = "any" then slots
  else
    slots.filter fun slot =>
      let hour := slot.startTime % 1440 / 60
      if timeOfDay = "morning" then decide (6 ≤ hour) && decide (hour < 12)
      else if timeOfDay = "afternoon" then decide (12 ≤ hour) && decide (hour < 17)
      else if timeOfDay = "evening" then decide (17 ≤ hour) && decide (hour < 21)
      else true

/-- `filterByDate(slots, dateStr)` from `src/utils/time-slots.js`: keep slots whose
local calendar date equals the given date. -/
def filterByDate (slots : List Slot) (dateStr : Int) : List Slot :=
  slots.filter fun slot => slot.startTime / 1440 == dateStr

/-- ASCII model of JavaScript `toLowerCase` on one character. -/
def charToLower (c : Char) : Char :=
  if 'A' ≤ c ∧ c ≤ 'Z' then Char.ofNat (c.toNat + 32) else c

/-- Model of JavaScript `String.prototype.toLowerCase`. -/
def strToLower (s : String) : String := ⟨s.data.map charToLower⟩

/-- Model of JavaScript `String.prototype.trim`: strip whitespace from both ends. -/
def strTrim (s : String) : String :=
  ⟨((s.data.dropWhile Char.isWhitespace).reverse.dropWhile Char.isWhitespace).reverse⟩

/-- One step of the character scan behind `strIncludes`: does the pattern occur at
the very front? -/
def charsStartWith : List Char → List Char → Bool
  | _, [] => true
  | [], _ :: _ => false
  | c :: cs, p :: ps => c == p && charsStartWith cs ps

/-- Does the pattern occur anywhere in the character list? -/
def charsContain (pat : List Char) : List Char → Bool
  | [] => charsStartWith [] pat
  | c :: cs => charsStartWith (c :: cs) pat || charsContain pat cs

/-- JavaScript `String.prototype.includes`: the pattern occurs somewhere in `s`. -/
def strIncludes (s pat : String) : Bool := charsContain pat.data s.data

/-- The `weekdays` array of `parseNaturalDate`. -/
def weekdayNames : List String :=
  ["monday", "tuesday", "wednesday", "thursday", "friday", "saturday", "sunday"]

/-- The weekday-search `while` loop of `parseNaturalDate`: starting at `date`,
advance one day while `date.weekday !== targetDay || date.hasSame(now, 'day')`.
The loop runs at most 7 steps from its entry point, so fuel 8 is enough at the
call site `nextWeekdayGo now targetDay 8 now`. -/
def nextWeekdayGo (now targetDay : Int) : Nat → Int → Int
  | 0, date => date
  | fuel + 1, date =>
    if weekdayOf date ≠ targetDay ∨ date = now then nextWeekdayGo now targetDay fuel (date + 1)
    else date

/-- `parseNaturalDate(input)` from `src/utils/time-slots.js`, returning the resolved
calendar date as a day index.  `now` is today's date (`DateTime.now()` in the business
zone); `luxonParse` stands for the trailing `DateTime.fromFormat(input, 'yyyy-MM-dd')`
branch, which returns the denoted date when the string is a valid explicit date. -/
def parseNaturalDate (luxonParse : String → Option Int) (now : Int) (input : String) :
    Option Int :=
  if input = "" then none
  else
    let lower := strTrim (strToLower input)
    if lower = "today" then some now
    else if lower = "tomorrow" then some (now + 1)
    else if lower = "day after tomorrow" then some (now + 2)
    else
      match weekdayNames.findIdx? (fun w => strIncludes lower w) with
      | some i =>
        let targetDay : Int := (i : Int) + 1
        let date := nextWeekdayGo now targetDay 8 now
        some (if strIncludes lower "next" then date + 7 else date)
      | none => luxonParse input

/-- A row of the `google_accounts` table, as formatted by `formatAccount` in
`account.repository.js` (the created/updated timestamps are not modelled). -/
structure Account where
  id : Int
  email : String
  accessToken : String
  refreshToken : String
  tokenExpiry : Int
  calendarId : String
  isActive : Bool
deriving Repr, DecidableEq

/-- `setActiveAccount(id)` from `account.repository.js`: inside one transaction,
`UPDATE google_accounts SET is_active = 0`, then
`UPDATE google_accounts SET is_active = 1 WHERE id = ?`, then select the row with
that id.  Returns the new table state together with the selected row. -/
def setActiveAccount (db : List Account) (id : Int) : List Account × Option Account :=
  let deactivated := db.map fun a => { a with isActive := false }
  let activated := deactivated.map fun a =>
    if a.id = id then { a with isActive := true } else a
  (activated, activated.find? fun a => a.id == id)

/-- A Google token set as held by an OAuth2 client (`credentials` in
`google-auth.js`); `expiry_date` is in milliseconds. -/
structure TokenCredentials where
  access_token : String
  refresh_token : Option String
  expiry_date : Int
deriving Repr, DecidableEq

/-- The arguments of an `updateTokens(email, tokens)` persistence call made by
`getAuthenticatedClient` after a successful refresh. -/
structure TokenUpdate where
  email : String
  accessToken : String
  refreshToken : Option String
  tokenExpiry : Int
deriving Repr, DecidableEq

/-- `getAuthenticatedClient(account)` from `src/utils/google-auth.js`.  `nowSec` is
`Math.floor(Date.now() / 1000)`; `refreshResult` is the outcome of the external
`oauth2Client.refreshAccessToken()` call.  Returns the credential set the client
ends up holding, together with the `updateTokens` write performed (if any); a failed
refresh is rethrown as a reconnect error. -/
def getAuthenticatedClient (nowSec : Int) (refreshResult : Except String TokenCredentials)
    (account : Account) : Except String (TokenCredentials × Option TokenUpdate) :=
  let initial : TokenCredentials :=
    { access_token := account.accessToken, refresh_token := some account.refreshToken,
      expiry_date := account.tokenExpiry * 1000 }
  if account.tokenExpiry < nowSec + 300 then
    match refreshResult with
    | .ok credentials =>
      .ok (credentials,
        some { email := account.email, accessToken := credentials.access_token,
               refreshToken := credentials.refresh_token,
               tokenExpiry := credentials.expiry_date / 1000 })
    | .error _ => .error "Failed to refresh Google token"
  else .ok (initial, none)

/-- The environment of one `calendar.service.js` operation: the current
`getActiveAccount()` result and the outcome of the provider free/busy call
(client construction and `freebusy.query` collapsed into one external step). -/
structure CalendarEnv where
  activeAccount : Option Account
  providerBusy : Except String (List BusyPeriod)
deriving Repr

/-- `getBusyPeriods(startDate, endDate)` from `calendar.service.js`: with no active
account it logs a warning and returns `[]`; otherwise it forwards the provider's
busy list, collapsing any provider error to a thrown
`Failed to check calendar availability`. -/
def getBusyPeriodsSvc (env : CalendarEnv) : Except String (List BusyPeriod) :=
  match env.activeAccount with
  | none => .ok []
  | some _ =>
    match env.providerBusy with
    | .ok busyPeriods => .ok busyPeriods
    | .error _ => .error "Failed to check calendar availability"

/-- JavaScript falsy test for an optional string field (`!x` is true for a missing
field and for the empty string). -/
def strFalsy : Option String → Bool
  | none => true
  | some s => s.isEmpty

/-- The result object of `getAvailableSlots` (`message` omitted: it is a display
string derived from `slots`). -/
structure SlotsResult where
  success : Bool
  error : Option String
  slots : List Slot
  totalAvailable : Option Nat
deriving Repr, DecidableEq

/-- Which external calendar work `getAvailableSlots` performed:
whether it entered the `getBusyPeriods` provider query at all. -/
structure SlotsEffects where
  busyQueried : Bool
deriving Repr, DecidableEq

/-- Environment of one `getAvailableSlots` request. -/
structure SlotsEnv where
  calendarEnv : CalendarEnv
  now : Int
  luxonParse : String → Option Int

/-- Caller options of `getAvailableSlots` (`timeOfDay` defaults to `"any"`,
`daysAhead` to 7 at the call boundary). -/
structure SlotsOptions where
  preferredDate : Option String
  timeOfDay : String
  daysAhead : Int
deriving Repr

/-- The preferred-date filtering step of `getAvailableSlots`
(`summary.service.js` lines 255-264): apply `filterByDate` but keep the unfiltered
list when the filter would empty it. -/
def dateFilterStep (slots : List Slot) (parsedDate : Int) : List Slot :=
  let dateSlots := filterByDate slots parsedDate
  if dateSlots.length > 0 then dateSlots else slots

/-- The time-of-day filtering step of `getAvailableSlots`
(`summary.service.js` lines 267-272): apply `filterByTimeOfDay` but keep the
unfiltered list when the filter would empty it. -/
def timeOfDayFilterStep (slots : List Slot) (timeOfDay : String) : List Slot :=
  let filteredSlots := filterByTimeOfDay slots timeOfDay
  if filteredSlots.length > 0 then filteredSlots else slots

/-- `getAvailableSlots(options)` from `booking.service.js` (the file whose claims
cite it as `summary.service.js`): short-circuit with a fallback when no account is
active, otherwise query busy periods over `[now, now + daysAhead days endOf day]`,
generate slots, apply the two graceful-degradation filter steps, and return the
first five. -/
def getAvailableSlots (cfg : CalendarConfig) (env : SlotsEnv) (opts : SlotsOptions) :
    SlotsResult × SlotsEffects :=
  match env.calendarEnv.activeAccount with
  | none =>
    ({ success := false, error := some "No calendar connected", slots := [],
       totalAvailable := none }, { busyQueried := false })
  | some _ =>
    let startDate := env.now
    let endDate := (env.now / 1440 + opts.daysAhead) * 1440 + 1439
    match getBusyPeriodsSvc env.calendarEnv with
    | .error _ =>
      ({ success := false, error := some "I had trouble checking the calendar",
         slots := [], totalAvailable := none }, { busyQueried := true })
    | .ok busyPeriods =>
      let slots0 := generateTimeSlots cfg env.now startDate endDate busyPeriods
      let slots1 :=
        match opts.preferredDate with
        | none => slots0
        | some pd =>
          match parseNaturalDate env.luxonParse (env.now / 1440) pd with
          | some parsedDate => dateFilterStep slots0 parsedDate
          | none => slots0
      let slots2 :=
        if opts.timeOfDay ≠ "" ∧ opts.timeOfDay ≠ "any" then
          timeOfDayFilterStep slots1 opts.timeOfDay
        else slots1
      ({ success := true, error := none, slots := slots2.take 5,
         totalAvailable := some slots2.length }, { busyQueried := true })

/-- The booking details object passed to `bookAppointment`; absent fields are
`none`. -/
structure BookingDetails where
  startTime : Option String
  customerName : Option String
  phoneNumber : Option String
  email : Option String
  address : Option String
  issue : Option String
  callId : Option String
deriving Repr

/-- The value returned by a successful `createCalendarEvent` (only the event id is
consumed downstream). -/
structure CreatedEvent where
  eventId : String
deriving Repr, DecidableEq

/-- A row inserted into the local `appointments` table by a successful booking. -/
structure BookedAppointment where
  id : Int
  eventId : String
  startTime : Int
  endTime : Int
deriving Repr, DecidableEq

/-- The structured result of `bookAppointment` (`message` omitted: display string). -/
structure BookResult where
  success : Bool
  error : Option String
  shouldRetry : Option Bool
  appointment : Option BookedAppointment
deriving Repr, DecidableEq

/-- Which external work `bookAppointment` performed: whether the re-validation
busy query ran, whether `events.insert` was attempted, which external event was
actually created, and which Appointment record was inserted locally. -/
structure BookEffects where
  busyQueried : Bool
  createAttempted : Bool
  eventCreated : Option CreatedEvent
  apptSaved : Option BookedAppointment
deriving Repr, DecidableEq

/-- Environment of one `bookAppointment` request: the active account and provider
free/busy outcome (shared with `getBusyPeriods`), the Luxon ISO parse of the chosen
start time, and the outcomes of the external `events.insert` and the local SQLite
insert (which yields the new row id). -/
structure BookEnv where
  calendarEnv : CalendarEnv
  luxonParse : String → Option Int
  createEventResult : Except String CreatedEvent
  saveApptId : Except String Int

/-- `bookAppointment(details)` from `booking.service.js`: validate required fields,
require an active account, parse the start time, re-validate the chosen interval
against a fresh busy query (window widened by one minute each side), then create the
external event and persist the local Appointment; any thrown step collapses to the
catch-all failure. -/
def bookAppointment (cfg : CalendarConfig) (env : BookEnv) (details : BookingDetails) :
    BookResult × BookEffects :=
  let noEffects : BookEffects :=
    { busyQueried := false, createAttempted := false, eventCreated := none,
      apptSaved := none }
  let catchFail : BookResult :=
    { success := false, error := some "I had trouble booking that appointment",
      shouldRetry := none, appointment := none }
  if strFalsy details.startTime || strFalsy details.customerName ||
      strFalsy details.phoneNumber || strFalsy details.address || strFalsy details.issue then
    ({ success := false, error := some "Missing required information for booking",
       shouldRetry := none, appointment := none }, noEffects)
  else
    match env.calendarEnv.activeAccount with
    | none =>
      ({ success := false, error := some "No calendar connected",
         shouldRetry := none, appointment := none }, noEffects)
    | some _ =>
      match env.luxonParse (details.startTime.getD "") with
      | none =>
        ({ success := false, error := some "Invalid appointment time",
           shouldRetry := none, appointment := none }, noEffects)
      | some start =>
        let stop := start + cfg.appointmentDuration
        match getBusyPeriodsSvc env.calendarEnv with
        | .error _ =>
          (catchFail, { noEffects with busyQueried := true })
        | .ok busyPeriods =>
          if busyPeriods.any (fun p => decide (start < p.stop) && decide (stop > p.start)) then
            ({ success := false, error := some "That time slot was just taken",
               shouldRetry := some true, appointment := none },
             { noEffects with busyQueried := true })
          else
            match env.createEventResult with
            | .error _ =>
              (catchFail,
               { noEffects with busyQueried := true, createAttempted := true })
            | .ok event =>
              match env.saveApptId with
              | .error _ =>
                (catchFail,
                 { busyQueried := true, createAttempted := true,
                   eventCreated := some event, apptSaved := none })
              | .ok apptId =>
                let appointment : BookedAppointment :=
                  { id := apptId, eventId := event.eventId, startTime := start,
                    endTime := stop }
                ({ success := true, error := none, shouldRetry := none,
                   appointment := some appointment },
                 { busyQueried := true, createAttempted := true,
                   eventCreated := some event, apptSaved := some appointment })

/-- The default calendar configuration of `src/config/index.js`: 60-minute
appointments, business hours 09:00-17:00, business days Monday-Friday. -/
def demoCfg : CalendarConfig :=
  { appointmentDuration := 60, startHour := 9, startMinute := 0, endHour := 17,
    endMinute := 0, businessDays := [1, 2, 3, 4, 5] }

/-- A sample stored account used to instantiate theorems. -/
def demoAccount : Account :=
  { id := 1, email := "owner@example.com", accessToken := "tok-a",
    refreshToken := "ref-a", tokenExpiry := 1000, calendarId := "primary",
    isActive := true }

/-- A second sample account. -/
def demoAccount2 : Account :=
  { id := 2, email := "second@example.com", accessToken := "tok-b",
    refreshToken := "ref-b", tokenExpiry := 2000, calendarId := "primary",
    isActive := false }

end VoiceLead

namespace VoiceLead

/-! ## Basic facts about the slot generator -/

-- Membership in the per-day slot list, decomposed back into the loop index.
theorem mem_slotsForDay {cfg : CalendarConfig} {now day : Int} {busy : List BusyPeriod}
    {s : Slot} (hs : s ∈ slotsForDay cfg now day busy) :
    ∃ k : Nat,
      (k : Int) < (day * 1440 + cfg.endHour * 60 + cfg.endMinute
          - (day * 1440 + cfg.startHour * 60 + cfg.startMinute)) / cfg.appointmentDuration ∧
      s.startTime = day * 1440 + cfg.startHour * 60 + cfg.startMinute
          + (k : Int) * cfg.appointmentDuration ∧
      s.endTime = s.startTime + cfg.appointmentDuration ∧
      now + 60 ≤ s.startTime ∧
      ∀ b ∈ busy, slotOverlapsBusy s.startTime s.endTime b = false := by
  simp only [slotsForDay, List.mem_filterMap, List.mem_range] at hs
  obtain ⟨k, hk, heq⟩ := hs
  refine ⟨k, ?_, ?_⟩
  · exact Int.lt_toNat.mp hk
  · split at heq
    · rename_i hcond
      cases heq
      refine ⟨rfl, rfl, hcond.1, ?_⟩
      intro b hb
      have := List.all_eq_true.mp hcond.2 b hb
      simpa using this
    · exact absurd heq (by simp)

-- Every generated slot comes from the slot list of some single day.
theorem mem_generateTimeSlots {cfg : CalendarConfig} {now startDate endDate : Int}
    {busy : List BusyPeriod} {s : Slot}
    (hs : s ∈ generateTimeSlots cfg now startDate endDate busy) :
    cfg.hoursValid = true ∧ ∃ day : Int, s ∈ slotsForDay cfg now day busy := by
  rw [generateTimeSlots] at hs
  split at hs
  · rename_i hv
    refine ⟨hv, ?_⟩
    rw [List.mem_flatMap] at hs
    obtain ⟨day, -, hmem⟩ := hs
    split at hmem
    · exact ⟨day, hmem⟩
    · exact absurd hmem (by simp)
  · exact absurd hs (by simp)

-- Interval bounds for a slot of one day: it starts no earlier than the business
-- opening and ends no later than the business closing of that day.
theorem slotsForDay_bounds {cfg : CalendarConfig} {now day : Int} {busy : List BusyPeriod}
    {s : Slot} (hdur : 0 < cfg.appointmentDuration)
    (hs : s ∈ slotsForDay cfg now day busy) :
    day * 1440 + cfg.startHour * 60 + cfg.startMinute ≤ s.startTime ∧
    s.endTime ≤ day * 1440 + cfg.endHour * 60 + cfg.endMinute := by
  obtain ⟨k, hk, hstart, hend, -, -⟩ := mem_slotsForDay hs
  have hk0 : (0 : Int) ≤ (k : Int) * cfg.appointmentDuration :=
    mul_nonneg (Int.natCast_nonneg k) (le_of_lt hdur)
  constructor
  · linarith [hstart]
  · have h2 : (k : Int) + 1 ≤ (day * 1440 + cfg.endHour * 60 + cfg.endMinute
        - (day * 1440 + cfg.startHour * 60 + cfg.startMinute)) / cfg.appointmentDuration := by
      omega
    have h3 := (Int.le_ediv_iff_mul_le hdur).mp h2
    have h4 : (k : Int) * cfg.appointmentDuration + cfg.appointmentDuration
        ≤ day * 1440 + cfg.endHour * 60 + cfg.endMinute
          - (day * 1440 + cfg.startHour * 60 + cfg.startMinute) := by
      calc (k : Int) * cfg.appointmentDuration + cfg.appointmentDuration
          = ((k : Int) + 1) * cfg.appointmentDuration := by ring
        _ ≤ _ := h3
    linarith [hstart, hend]

-- Within one day, slots are chronologically separated: each ends before the next starts.
theorem slotsForDay_pairwise (cfg : CalendarConfig) (now day : Int)
    (busy : List BusyPeriod) (hdur : 0 < cfg.appointmentDuration) :
    (slotsForDay cfg now day busy).Pairwise fun a b => a.endTime ≤ b.startTime := by
  rw [slotsForDay, List.pairwise_filterMap]
  refine (List.pairwise_lt_range _).imp ?_
  intro k k' hkk' s hs s' hs'
  simp only [Option.mem_def, Option.ite_none_right_eq_some, Option.some.injEq] at hs hs'
  obtain ⟨-, hs⟩ := hs
  obtain ⟨-, hs'⟩ := hs'
  subst hs; subst hs'
  have hle : ((k : Int) + 1) * cfg.appointmentDuration
      ≤ (k' : Int) * cfg.appointmentDuration := by
    have : (k : Int) + 1 ≤ (k' : Int) := by exact_mod_cast hkk'
    exact mul_le_mul_of_nonneg_right this (le_of_lt hdur)
  dsimp only
  linarith [hle]

/-- C2: for every input date range, busy-period list and configuration (with a
positive configured duration — a nonpositive duration makes the source loop
diverge), every generated slot lasts exactly the configured appointment duration,
every slot starts at least one hour after the generation-time clock reading, and no
two slots in one result overlap. -/
theorem generateTimeSlots_slot_laws (cfg : CalendarConfig) (now startDate endDate : Int)
    (busy : List BusyPeriod) (hdur : 0 < cfg.appointmentDuration) :
    (∀ s ∈ generateTimeSlots cfg now startDate endDate busy,
        s.endTime - s.startTime = cfg.appointmentDuration ∧ now + 60 ≤ s.startTime) ∧
    (generateTimeSlots cfg now startDate endDate busy).Pairwise
      (fun a b => ¬(a.startTime < b.endTime ∧ b.startTime < a.endTime)) := by
  constructor
  · intro s hs
    obtain ⟨-, day, hmem⟩ := mem_generateTimeSlots hs
    obtain ⟨k, -, -, hend, hnow, -⟩ := mem_slotsForDay hmem
    exact ⟨by omega, hnow⟩
  · have hsep : (generateTimeSlots cfg now startDate endDate busy).Pairwise
        fun a b => a.endTime ≤ b.startTime := by
      rw [generateTimeSlots]
      split
      · rename_i hv
        simp only [CalendarConfig.hoursValid, Bool.and_eq_true, decide_eq_true_eq] at hv
        rw [List.pairwise_flatMap]
        constructor
        · intro day hday
          split
          · exact slotsForDay_pairwise cfg now day busy hdur
          · exact List.Pairwise.nil
        · rw [List.pairwise_map]
          refine (List.pairwise_lt_range _).imp ?_
          intro k k' hkk' x hx y hy
          split at hx
          · split at hy
            · have hxb := slotsForDay_bounds hdur hx
              have hyb := slotsForDay_bounds hdur hy
              have hkk : (k : Int) + 1 ≤ (k' : Int) := by exact_mod_cast hkk'
              have hx2 := hxb.2
              have hy2 := hyb.1
              omega
            · exact absurd hy (by simp)
          · exact absurd hx (by simp)
      · exact List.Pairwise.nil
    exact hsep.imp fun h => by omega

/-- Witness for C2 at the default configuration, an empty busy list and one
Monday: the hypotheses hold and the conclusions evaluate. -/
theorem generateTimeSlots_slot_laws_witness :
    (0 : Int) < demoCfg.appointmentDuration ∧
    ((∀ s ∈ generateTimeSlots demoCfg 0 0 0 [],
        s.endTime - s.startTime = demoCfg.appointmentDuration ∧ 0 + 60 ≤ s.startTime) ∧
      (generateTimeSlots demoCfg 0 0 0 []).Pairwise
        (fun a b => ¬(a.startTime < b.endTime ∧ b.startTime < a.endTime))) :=
  ⟨by decide, generateTimeSlots_slot_laws demoCfg 0 0 0 [] (by decide)⟩

/-- C3: no generated slot overlaps any input busy period under open-interval
semantics. -/
theorem generateTimeSlots_avoids_busy (cfg : CalendarConfig) (now startDate endDate : Int)
    (busy : List BusyPeriod) :
    ∀ S ∈ generateTimeSlots cfg now startDate endDate busy, ∀ B ∈ busy,
      ¬(S.startTime < B.stop ∧ S.endTime > B.start) := by
  intro S hS B hB
  obtain ⟨-, day, hmem⟩ := mem_generateTimeSlots hS
  obtain ⟨k, -, -, -, -, hbusy⟩ := mem_slotsForDay hmem
  have hfalse := hbusy B hB
  simp only [slotOverlapsBusy, Bool.and_eq_false_iff, decide_eq_false_iff_not] at hfalse
  omega

/-- Witness for C3: the 09:00 slot generated against a 10:00-11:00 busy period is
in the output and does not overlap that busy period. -/
theorem generateTimeSlots_avoids_busy_witness :
    ¬((540 : Int) < (660 : Int) ∧ (600 : Int) > (600 : Int)) :=
  generateTimeSlots_avoids_busy demoCfg 0 0 0 [⟨600, 660⟩]
    ⟨540, 600⟩ (by decide) ⟨600, 660⟩ (by decide)

/-! ## Graceful-degradation filter steps -/

/-- C4: starting from a non-empty slot list, the `filterByDate` and
`filterByTimeOfDay` steps of `getAvailableSlots` never yield an empty result: each
keeps the filtered list when it is non-empty, and keeps the pre-filter list
unchanged when the filter would remove every slot. -/
theorem filterStep_graceful (slots : List Slot) (parsedDate : Int) (timeOfDay : String)
    (h : slots ≠ []) :
    (dateFilterStep slots parsedDate ≠ [] ∧
      dateFilterStep slots parsedDate =
        if filterByDate slots parsedDate = [] then slots
        else filterByDate slots parsedDate) ∧
    (timeOfDayFilterStep slots timeOfDay ≠ [] ∧
      timeOfDayFilterStep slots timeOfDay =
        if filterByTimeOfDay slots timeOfDay = [] then slots
        else filterByTimeOfDay slots timeOfDay) := by
  constructor
  · cases hd : filterByDate slots parsedDate with
    | nil => simp [dateFilterStep, hd, h]
    | cons a l => simp [dateFilterStep, hd]
  · cases ht : filterByTimeOfDay slots timeOfDay with
    | nil => simp [timeOfDayFilterStep, ht, h]
    | cons a l => simp [timeOfDayFilterStep, ht]

/-- Witness for C4: one morning slot, a preferred date with no matching slot and an
evening preference that matches nothing — both steps keep the original list. -/
theorem filterStep_graceful_witness :
    ([(⟨540, 600⟩ : Slot)] ≠ []) ∧
    ((dateFilterStep [(⟨540, 600⟩ : Slot)] 5 ≠ [] ∧
        dateFilterStep [(⟨540, 600⟩ : Slot)] 5 =
          if filterByDate [(⟨540, 600⟩ : Slot)] 5 = [] then [(⟨540, 600⟩ : Slot)]
          else filterByDate [(⟨540, 600⟩ : Slot)] 5) ∧
      (timeOfDayFilterStep [(⟨540, 600⟩ : Slot)] "evening" ≠ [] ∧
        timeOfDayFilterStep [(⟨540, 600⟩ : Slot)] "evening" =
          if filterByTimeOfDay [(⟨540, 600⟩ : Slot)] "evening" = []
          then [(⟨540, 600⟩ : Slot)]
          else filterByTimeOfDay [(⟨540, 600⟩ : Slot)] "evening")) :=
  ⟨by decide, filterStep_graceful [⟨540, 600⟩] 5 "evening" (by decide)⟩

/-! ## Availability and busy-period short circuits -/

/-- C8: with no active account, `getAvailableSlots` returns the structured fallback
`success := false` with an empty slot list, and never reaches the provider query. -/
theorem getAvailableSlots_noAccount (cfg : CalendarConfig) (env : SlotsEnv)
    (opts : SlotsOptions) (h : env.calendarEnv.activeAccount = none) :
    getAvailableSlots cfg env opts =
      ({ success := false, error := some "No calendar connected", slots := [],
         totalAvailable := none }, { busyQueried := false }) := by
  simp [getAvailableSlots, h]

/-- Witness for C8 at a concrete empty environment. -/
theorem getAvailableSlots_noAccount_witness :
    getAvailableSlots demoCfg ⟨⟨none, Except.ok []⟩, 0, fun _ => none⟩ ⟨none, "any", 7⟩ =
      ({ success := false, error := some "No calendar connected", slots := [],
         totalAvailable := none }, { busyQueried := false }) :=
  getAvailableSlots_noAccount demoCfg ⟨⟨none, Except.ok []⟩, 0, fun _ => none⟩
    ⟨none, "any", 7⟩ rfl

/-- C10: `getBusyPeriods` with no active account returns the empty busy list
rather than failing, which is exactly its result for an account whose calendar
reports no busy periods. -/
theorem getBusyPeriods_noAccount_empty (env : CalendarEnv) :
    (env.activeAccount = none → getBusyPeriodsSvc env = Except.ok []) ∧
    (∀ acct, env.activeAccount = some acct → env.providerBusy = Except.ok [] →
      getBusyPeriodsSvc env = Except.ok []) := by
  constructor
  · intro h; simp [getBusyPeriodsSvc, h]
  · intro acct h hb; simp [getBusyPeriodsSvc, h, hb]

/-- Witness for C10: the missing-account case and the empty-calendar case produce
the same value. -/
theorem getBusyPeriods_noAccount_empty_witness :
    getBusyPeriodsSvc ⟨none, Except.ok []⟩ = Except.ok [] ∧
    getBusyPeriodsSvc ⟨some demoAccount, Except.ok []⟩ = Except.ok [] :=
  ⟨(getBusyPeriods_noAccount_empty ⟨none, Except.ok []⟩).1 rfl,
    (getBusyPeriods_noAccount_empty ⟨some demoAccount, Except.ok []⟩).2 demoAccount rfl rfl⟩

/-! ## Booking commit -/

/-- C9: when a required booking field is missing (or empty), `bookAppointment`
fails with `success := false` before any external work: no busy query, no event
creation attempt, no event created, no Appointment inserted. -/
theorem bookAppointment_missing_field (cfg : CalendarConfig) (env : BookEnv)
    (details : BookingDetails)
    (h : (strFalsy details.startTime || strFalsy details.customerName ||
        strFalsy details.phoneNumber || strFalsy details.address ||
        strFalsy details.issue) = true) :
    bookAppointment cfg env details =
      ({ success := false, error := some "Missing required information for booking",
         shouldRetry := none, appointment := none },
       { busyQueried := false, createAttempted := false, eventCreated := none,
         apptSaved := none }) := by
  simp [bookAppointment, h]

/-- Witness for C9: a booking request with no phone number. -/
theorem bookAppointment_missing_field_witness :
    bookAppointment demoCfg
        ⟨⟨some demoAccount, Except.ok []⟩, fun _ => none, Except.ok ⟨"ev1"⟩, Except.ok 1⟩
        ⟨some "2025-01-06T10:00", some "Alice", none, none, some "12 Main St",
          some "leaking pipe", none⟩ =
      ({ success := false, error := some "Missing required information for booking",
         shouldRetry := none, appointment := none },
       { busyQueried := false, createAttempted := false, eventCreated := none,
         apptSaved := none }) :=
  bookAppointment_missing_field demoCfg
    ⟨⟨some demoAccount, Except.ok []⟩, fun _ => none, Except.ok ⟨"ev1"⟩, Except.ok 1⟩
    ⟨some "2025-01-06T10:00", some "Alice", none, none, some "12 Main St",
      some "leaking pipe", none⟩ (by decide)

/-- C1: when the re-validation busy query returns a busy period overlapping the
chosen interval, `bookAppointment` returns `success := false` with
`shouldRetry := true`, attempts no event creation, creates no external event and
inserts no Appointment record. -/
theorem bookAppointment_conflict (cfg : CalendarConfig) (env : BookEnv)
    (details : BookingDetails) (acct : Account) (busy : List BusyPeriod)
    (p : BusyPeriod) (start : Int)
    (hfields : (strFalsy details.startTime || strFalsy details.customerName ||
        strFalsy details.phoneNumber || strFalsy details.address ||
        strFalsy details.issue) = false)
    (hacct : env.calendarEnv.activeAccount = some acct)
    (hparse : env.luxonParse (details.startTime.getD "") = some start)
    (hbusy : getBusyPeriodsSvc env.calendarEnv = Except.ok busy)
    (hp : p ∈ busy)
    (hov : start < p.stop ∧ start + cfg.appointmentDuration > p.start) :
    bookAppointment cfg env details =
      ({ success := false, error := some "That time slot was just taken",
         shouldRetry := some true, appointment := none },
       { busyQueried := true, createAttempted := false, eventCreated := none,
         apptSaved := none }) := by
  have hany : busy.any (fun q => decide (start < q.stop) &&
      decide (start + cfg.appointmentDuration > q.start)) = true := by
    rw [List.any_eq_true]
    exact ⟨p, hp, by simp [hov.1, hov.2]⟩
  simp [bookAppointment, hfields, hacct, hparse, hbusy, hany]

/-- Witness for C1: a concrete losing booking race — a 10:00-11:00 busy period
against a 10:00 start. -/
theorem bookAppointment_conflict_witness :
    bookAppointment demoCfg
        ⟨⟨some demoAccount, Except.ok [⟨600, 660⟩]⟩,
          (fun s => if s = "slotA" then some 600 else none),
          Except.ok ⟨"ev1"⟩, Except.ok 1⟩
        ⟨some "slotA", some "Alice", some "555-0100", none, some "12 Main St",
          some "leaking pipe", none⟩ =
      ({ success := false, error := some "That time slot was just taken",
         shouldRetry := some true, appointment := none },
       { busyQueried := true, createAttempted := false, eventCreated := none,
         apptSaved := none }) :=
  bookAppointment_conflict demoCfg
    ⟨⟨some demoAccount, Except.ok [⟨600, 660⟩]⟩,
      (fun s => if s = "slotA" then some 600 else none),
      Except.ok ⟨"ev1"⟩, Except.ok 1⟩
    ⟨some "slotA", some "Alice", some "555-0100", none, some "12 Main St",
      some "leaking pipe", none⟩
    demoAccount [⟨600, 660⟩] ⟨600, 660⟩ 600
    (by decide) rfl (by decide) rfl (by decide) (by decide)

/-! ## Token refresh margin -/

/-- C7: `getAuthenticatedClient` refreshes the stored token exactly when its expiry
falls strictly inside the 5-minute safety margin: inside the margin the returned
client holds the refreshed credentials and an `updateTokens` write is persisted;
outside it the stored tokens are used unchanged and nothing is written. -/
theorem getAuthenticatedClient_margin (nowSec : Int)
    (refreshResult : Except String TokenCredentials) (account : Account)
    (client : TokenCredentials) (upd : Option TokenUpdate)
    (h : getAuthenticatedClient nowSec refreshResult account = .ok (client, upd)) :
    (account.tokenExpiry < nowSec + 300 →
      refreshResult = .ok client ∧
      upd = some { email := account.email, accessToken := client.access_token,
                   refreshToken := client.refresh_token,
                   tokenExpiry := client.expiry_date / 1000 }) ∧
    (nowSec + 300 ≤ account.tokenExpiry →
      client = { access_token := account.accessToken,
                 refresh_token := some account.refreshToken,
                 expiry_date := account.tokenExpiry * 1000 } ∧ upd = none) := by
  unfold getAuthenticatedClient at h
  constructor
  · intro hexp
    rw [if_pos hexp] at h
    cases hr : refreshResult with
    | ok creds =>
      rw [hr] at h
      simp only [Except.ok.injEq, Prod.mk.injEq] at h
      obtain ⟨hc, hu⟩ := h
      subst hc
      exact ⟨rfl, hu.symm⟩
    | error e =>
      rw [hr] at h
      exact absurd h (by simp)
  · intro hexp
    rw [if_neg (by omega)] at h
    simp only [Except.ok.injEq, Prod.mk.injEq] at h
    exact ⟨h.1.symm, h.2.symm⟩

/-- Witness for C7: a token four minutes from expiry is refreshed and persisted; a
token ten minutes from expiry is used as stored with no write. -/
theorem getAuthenticatedClient_margin_witness :
    (getAuthenticatedClient 0 (Except.ok ⟨"t2", some "r2", 900000⟩)
        { demoAccount with tokenExpiry := 240 } =
      Except.ok (⟨"t2", some "r2", 900000⟩,
        some ⟨"owner@example.com", "t2", some "r2", 900⟩)) ∧
    (Except.ok (⟨"t2", some "r2", 900000⟩ : TokenCredentials) =
      (Except.ok ⟨"t2", some "r2", 900000⟩ : Except String TokenCredentials)) ∧
    (getAuthenticatedClient 0 (Except.ok ⟨"t2", some "r2", 900000⟩)
        { demoAccount with tokenExpiry := 600 } =
      Except.ok (⟨"tok-a", some "ref-a", 600000⟩, none)) ∧
    ((none : Option TokenUpdate) = none) := by
  have h4 : getAuthenticatedClient 0 (Except.ok ⟨"t2", some "r2", 900000⟩)
      { demoAccount with tokenExpiry := 240 } =
      Except.ok (⟨"t2", some "r2", 900000⟩,
        some ⟨"owner@example.com", "t2", some "r2", 900⟩) := rfl
  have h10 : getAuthenticatedClient 0 (Except.ok ⟨"t2", some "r2", 900000⟩)
      { demoAccount with tokenExpiry := 600 } =
      Except.ok (⟨"tok-a", some "ref-a", 600000⟩, none) := rfl
  refine ⟨h4, ?_, h10, ?_⟩
  · exact ((getAuthenticatedClient_margin 0 _ _ _ _ h4).1 (by decide)).1.symm
  · exact ((getAuthenticatedClient_margin 0 _ _ _ _ h10).2 (by decide)).2

/-! ## Single-active-account transition -/

-- After `setActiveAccount(id)`, a row is active exactly when its id is the given
-- one (no hypotheses needed: this holds row by row).
theorem setActiveAccount_active_iff (db : List Account) (id : Int) :
    ∀ a ∈ (setActiveAccount db id).1, (a.isActive = true ↔ a.id = id) := by
  intro a ha
  simp only [setActiveAccount, List.map_map, List.mem_map, Function.comp] at ha
  obtain ⟨a₀, -, rfl⟩ := ha
  split
  · rename_i hid
    simpa using hid
  · rename_i hid
    simpa using hid

/-- C5 counterexample: activating an id that is not in the store (a single stored
account with id 1, activation of id 2) leaves zero active accounts, so the claim
as stated — exactly one active account after every `setActiveAccount(id)` — fails. -/
theorem setActiveAccount_missing_id_counterexample :
    ¬((((setActiveAccount [demoAccount] 2).1.countP fun a => a.isActive) = 1) ∧
      ∀ a ∈ (setActiveAccount [demoAccount] 2).1, a.isActive = true → a.id = 2) := by
  decide

/-- C5 amended: when the store's ids are distinct (the table's primary key) and the
requested id is present, `setActiveAccount(id)` leaves exactly one account active,
namely the one with that id. -/
theorem setActiveAccount_spec (db : List Account) (id : Int)
    (hnodup : (db.map fun a => a.id).Nodup) (hmem : id ∈ db.map fun a => a.id) :
    (∀ a ∈ (setActiveAccount db id).1, (a.isActive = true ↔ a.id = id)) ∧
    ((setActiveAccount db id).1.countP fun a => a.isActive) = 1 := by
  refine ⟨setActiveAccount_active_iff db id, ?_⟩
  have h1 : ((setActiveAccount db id).1.countP fun a => a.isActive) =
      (setActiveAccount db id).1.countP fun a => a.id == id := by
    apply List.countP_congr
    intro a ha
    have hiff := setActiveAccount_active_iff db id a ha
    constructor
    · intro hx
      simpa using hiff.mp hx
    · intro hx
      exact hiff.mpr (by simpa using hx)
  have h2 : ((setActiveAccount db id).1.countP fun a => a.id == id) =
      (db.map fun a => a.id).count id := by
    simp only [setActiveAccount, List.map_map]
    rw [List.count_eq_countP, List.countP_map, List.countP_map]
    apply List.countP_congr
    intro a ha
    dsimp [Function.comp]
    split
    · rename_i hid
      simp [hid]
    · rename_i hid
      simp [hid]
  rw [h1, h2]
  exact List.count_eq_one_of_mem hnodup hmem

/-! ## Natural-date weekday resolution -/

-- The weekday-search loop, specified: entered strictly after `now` with enough fuel
-- to reach an occurrence of the target weekday, it returns the first occurrence at
-- or after its entry date.
theorem nextWeekdayGo_spec (now targetDay : Int) :
    ∀ (fuel : Nat) (date : Int), now < date →
      (∃ j : Int, date ≤ j ∧ j < date + fuel ∧ weekdayOf j = targetDay) →
      weekdayOf (nextWeekdayGo now targetDay fuel date) = targetDay ∧
      date ≤ nextWeekdayGo now targetDay fuel date ∧
      nextWeekdayGo now targetDay fuel date < date + fuel ∧
      ∀ e : Int, date ≤ e → e < nextWeekdayGo now targetDay fuel date →
        weekdayOf e ≠ targetDay := by
  intro fuel
  induction fuel with
  | zero =>
    intro date hlt hex
    obtain ⟨j, hj1, hj2, -⟩ := hex
    exact absurd hj2 (by push_cast; omega)
  | succ fuel ih =>
    intro date hlt hex
    simp only [nextWeekdayGo]
    by_cases hcond : weekdayOf date ≠ targetDay ∨ date = now
    · rw [if_pos hcond]
      have hwd : weekdayOf date ≠ targetDay := by
        rcases hcond with h | h
        · exact h
        · exact absurd h (by omega)
      obtain ⟨j, hj1, hj2, hj3⟩ := hex
      have hjne : j ≠ date := fun h => hwd (h ▸ hj3)
      have hstep := ih (date + 1) (by omega)
        ⟨j, by omega, by push_cast at hj2 ⊢; omega, hj3⟩
      obtain ⟨i1, i2, i3, i4⟩ := hstep
      refine ⟨i1, by omega, by push_cast at i3 ⊢; omega, ?_⟩
      intro e he1 he2
      rcases eq_or_lt_of_le he1 with rfl | hgt
      · exact hwd
      · exact i4 e (by omega) he2
    · rw [if_neg hcond]
      push_neg at hcond
      refine ⟨hcond.1, le_refl date, by push_cast; omega, ?_⟩
      intro e he1 he2
      exact absurd he2 (by omega)

-- Every 7-day window contains each weekday exactly once; in particular an
-- occurrence of the target weekday exists.
theorem weekday_exists_in_week (start targetDay : Int) (h1 : 1 ≤ targetDay)
    (h7 : targetDay ≤ 7) :
    ∃ j : Int, start ≤ j ∧ j < start + 7 ∧ weekdayOf j = targetDay := by
  refine ⟨start + (targetDay - 1 - start) % 7, by omega, by omega, ?_⟩
  simp only [weekdayOf]
  omega

-- The full weekday walk of `parseNaturalDate`: the first occurrence of the target
-- weekday strictly after `now` (a same-day match advances a full week).
theorem nextWeekday_after (now targetDay : Int) (h1 : 1 ≤ targetDay)
    (h7 : targetDay ≤ 7) :
    weekdayOf (nextWeekdayGo now targetDay 8 now) = targetDay ∧
    now < nextWeekdayGo now targetDay 8 now ∧
    nextWeekdayGo now targetDay 8 now ≤ now + 7 ∧
    ∀ e : Int, now < e → e < nextWeekdayGo now targetDay 8 now →
      weekdayOf e ≠ targetDay := by
  have hstep : nextWeekdayGo now targetDay 8 now =
      nextWeekdayGo now targetDay 7 (now + 1) := by
    have h8 : (8 : Nat) = 7 + 1 := rfl
    rw [h8, nextWeekdayGo, if_pos (Or.inr rfl)]
  obtain ⟨j, hj1, hj2, hj3⟩ := weekday_exists_in_week (now + 1) targetDay h1 h7
  have hres := nextWeekdayGo_spec now targetDay 7 (now + 1) (by omega)
    ⟨j, hj1, by push_cast; omega, hj3⟩
  obtain ⟨i1, i2, i3, i4⟩ := hres
  rw [hstep]
  refine ⟨i1, by omega, by push_cast at i3; omega, ?_⟩
  intro e he1 he2
  exact i4 e (by omega) he2

-- No weekday name occurs inside the empty string or the literal phrases that
-- `parseNaturalDate` resolves before the weekday scan.
theorem weekday_not_in_literals :
    ∀ w ∈ weekdayNames, strIncludes "" w = false ∧ strIncludes "today" w = false ∧
      strIncludes "tomorrow" w = false ∧
      strIncludes "day after tomorrow" w = false := by
  decide

-- When exactly one weekday name occurs in the phrase, the scan finds its index.
theorem findIdx_weekday (lower : String) (i : Nat) (hi : i < 7)
    (hmem : strIncludes lower (weekdayNames.getD i "") = true)
    (huniq : ∀ j : Nat, j < 7 → j ≠ i →
      strIncludes lower (weekdayNames.getD j "") = false) :
    weekdayNames.findIdx? (fun w => strIncludes lower w) = some i := by
  interval_cases i
  · rw [show weekdayNames.getD 0 "" = "monday" from rfl] at hmem
    simp [weekdayNames, List.findIdx?_cons, hmem]
  · have u0 := huniq 0 (by omega) (by omega)
    rw [show weekdayNames.getD 0 "" = "monday" from rfl] at u0
    rw [show weekdayNames.getD 1 "" = "tuesday" from rfl] at hmem
    simp [weekdayNames, List.findIdx?_cons, hmem, u0]
  · have u0 := huniq 0 (by omega) (by omega)
    have u1 := huniq 1 (by omega) (by omega)
    rw [show weekdayNames.getD 0 "" = "monday" from rfl] at u0
    rw [show weekdayNames.getD 1 "" = "tuesday" from rfl] at u1
    rw [show weekdayNames.getD 2 "" = "wednesday" from rfl] at hmem
    simp [weekdayNames, List.findIdx?_cons, hmem, u0, u1]
  · have u0 := huniq 0 (by omega) (by omega)
    have u1 := huniq 1 (by omega) (by omega)
    have u2 := huniq 2 (by omega) (by omega)
    rw [show weekdayNames.getD 0 "" = "monday" from rfl] at u0
    rw [show weekdayNames.getD 1 "" = "tuesday" from rfl] at u1
    rw [show weekdayNames.getD 2 "" = "wednesday" from rfl] at u2
    rw [show weekdayNames.getD 3 "" = "thursday" from rfl] at hmem
    simp [weekdayNames, List.findIdx?_cons, hmem, u0, u1, u2]
  · have u0 := huniq 0 (by omega) (by omega)
    have u1 := huniq 1 (by omega) (by omega)
    have u2 := huniq 2 (by omega) (by omega)
    have u3 := huniq 3 (by omega) (by omega)
    rw [show weekdayNames.getD 0 "" = "monday" from rfl] at u0
    rw [show weekdayNames.getD 1 "" = "tuesday" from rfl] at u1
    rw [show weekdayNames.getD 2 "" = "wednesday" from rfl] at u2
    rw [show weekdayNames.getD 3 "" = "thursday" from rfl] at u3
    rw [show weekdayNames.getD 4 "" = "friday" from rfl] at hmem
    simp [weekdayNames, List.findIdx?_cons, hmem, u0, u1, u2, u3]
  · have u0 := huniq 0 (by omega) (by omega)
    have u1 := huniq 1 (by omega) (by omega)
    have u2 := huniq 2 (by omega) (by omega)
    have u3 := huniq 3 (by omega) (by omega)
    have u4 := huniq 4 (by omega) (by omega)
    rw [show weekdayNames.getD 0 "" = "monday" from rfl] at u0
    rw [show weekdayNames.getD 1 "" = "tuesday" from rfl] at u1
    rw [show weekdayNames.getD 2 "" = "wednesday" from rfl] at u2
    rw [show weekdayNames.getD 3 "" = "thursday" from rfl] at u3
    rw [show weekdayNames.getD 4 "" = "friday" from rfl] at u4
    rw [show weekdayNames.getD 5 "" = "saturday" from rfl] at hmem
    simp [weekdayNames, List.findIdx?_cons, hmem, u0, u1, u2, u3, u4]
  · have u0 := huniq 0 (by omega) (by omega)
    have u1 := huniq 1 (by omega) (by omega)
    have u2 := huniq 2 (by omega) (by omega)
    have u3 := huniq 3 (by omega) (by omega)
    have u4 := huniq 4 (by omega) (by omega)
    have u5 := huniq 5 (by omega) (by omega)
    rw [show weekdayNames.getD 0 "" = "monday" from rfl] at u0
    rw [show weekdayNames.getD 1 "" = "tuesday" from rfl] at u1
    rw [show weekdayNames.getD 2 "" = "wednesday" from rfl] at u2
    rw [show weekdayNames.getD 3 "" = "thursday" from rfl] at u3
    rw [show weekdayNames.getD 4 "" = "friday" from rfl] at u4
    rw [show weekdayNames.getD 5 "" = "saturday" from rfl] at u5
    rw [show weekdayNames.getD 6 "" = "sunday" from rfl] at hmem
    simp [weekdayNames, List.findIdx?_cons, hmem, u0, u1, u2, u3, u4, u5]

/-- C6: for a phrase containing exactly one weekday name (the `i`-th,
0 = monday .. 6 = sunday), `parseNaturalDate` resolves to the next occurrence of
that weekday strictly after the reference date — a same-day match advances to the
following week — and adds one further week when the phrase also contains the word
`next`. -/
theorem parseNaturalDate_weekday (luxonParse : String → Option Int) (now : Int)
    (input : String) (i : Nat) (hi : i < 7)
    (hmem : strIncludes (strTrim (strToLower input)) (weekdayNames.getD i "") = true)
    (huniq : ∀ j : Nat, j < 7 → j ≠ i →
      strIncludes (strTrim (strToLower input)) (weekdayNames.getD j "") = false) :
    ∃ d : Int,
      parseNaturalDate luxonParse now input =
        some (if strIncludes (strTrim (strToLower input)) "next" = true then d + 7 else d) ∧
      weekdayOf d = (i : Int) + 1 ∧ now < d ∧ d ≤ now + 7 ∧
      ∀ e : Int, now < e → e < d → weekdayOf e ≠ (i : Int) + 1 := by
  have hfind : weekdayNames.findIdx? (fun w => strIncludes (strTrim (strToLower input)) w) =
      some i := findIdx_weekday (strTrim (strToLower input)) i hi hmem huniq
  have hne : ¬(input = "") := by
    intro h
    rw [h] at hmem
    revert hmem
    interval_cases i <;> decide
  have ht1 : ¬((strTrim (strToLower input)) = "today") := by
    intro h
    rw [h] at hmem
    revert hmem
    interval_cases i <;> decide
  have ht2 : ¬((strTrim (strToLower input)) = "tomorrow") := by
    intro h
    rw [h] at hmem
    revert hmem
    interval_cases i <;> decide
  have ht3 : ¬((strTrim (strToLower input)) = "day after tomorrow") := by
    intro h
    rw [h] at hmem
    revert hmem
    interval_cases i <;> decide
  obtain ⟨w1, w2, w3, w4⟩ :=
    nextWeekday_after now ((i : Int) + 1) (by omega) (by omega)
  refine ⟨nextWeekdayGo now ((i : Int) + 1) 8 now, ?_, w1, w2, w3, w4⟩
  simp only [parseNaturalDate, if_neg hne, if_neg ht1, if_neg ht2, if_neg ht3, hfind]

/-- Witness for C6: `"next friday"` against a Monday reference date resolves to a
Friday strictly after the reference, plus one week. -/
theorem parseNaturalDate_weekday_witness :
    ∃ d : Int,
      parseNaturalDate (fun _ => none) 0 "next friday" =
        some (if strIncludes (strTrim (strToLower "next friday")) "next" = true
          then d + 7 else d) ∧
      weekdayOf d = ((4 : Nat) : Int) + 1 ∧ 0 < d ∧ d ≤ 0 + 7 ∧
      ∀ e : Int, 0 < e → e < d → weekdayOf e ≠ ((4 : Nat) : Int) + 1 :=
  parseNaturalDate_weekday (fun _ => none) 0 "next friday" 4 (by decide) (by decide)
    (by decide)

/-- Witness for the amended C5 at a two-account store, activating id 2. -/
theorem setActiveAccount_spec_witness :
    ((([demoAccount, demoAccount2].map fun a => a.id).Nodup ∧
        (2 : Int) ∈ [demoAccount, demoAccount2].map fun a => a.id)) ∧
    ((∀ a ∈ (setActiveAccount [demoAccount, demoAccount2] 2).1,
        (a.isActive = true ↔ a.id = 2)) ∧
      ((setActiveAccount [demoAccount, demoAccount2] 2).1.countP
        fun a => a.isActive) = 1) :=
  ⟨⟨by decide, by decide⟩,
    setActiveAccount_spec [demoAccount, demoAccount2] 2 (by decide) (by decide)⟩

end VoiceLead
